import Mathlib

/-!
Verification of the CraftJS bootstrap layer: the `require` module
resolver/loader (`dist/boot/require`, here `__require` and its helpers) and
the stack-trace frame filter (`boot/errors.ts`, here `shouldEmitFrame`).

Modelling conventions:
* A filesystem path (`java.nio.file.Path`) is a list of name segments.
  `pathResolve`/`pathOfString` model `Path.resolve`/`Path.of` denotationally:
  `"/"`-separated components are appended, and `"."` / empty components are
  dropped, since every use of a path in the source is through file access,
  which identifies `D/./f` with `D/f`.
* Host facilities (`Files.exists`, `Files.isDirectory`, `Files.readString`,
  `JSON.parse(...).main`, the GraalJS `Packages` graph, `__craftjs.eval`
  plus invocation of the wrapped module body) are an explicit environment
  `Env`. `readFile p = none` models `Files.readString` throwing;
  `evalExec p` gives the net outcome of evaluating and invoking the module
  body at `p`: the final value of `module.exports`, tagged with whether the
  body threw (`ExecResult.threw` carries the partial exports left behind).
* JS object identity is modelled by the inductive `Value`: the loader's
  fresh `module` wrapper object is `Value.moduleRecord e` where `e` is the
  value of its `exports` field, so wrapper and exports are never equal.
* The module cache (`Map<string, any>`) is an association list where
  `cacheSet` prepends and `cacheGet` takes the first match, observationally
  the same as `Map.set`/`Map.get` for this use.
* The require stack (a JS array used with `push`/`pop`/last element) is a
  list with its top at the end.
-/

deriving instance DecidableEq for Except

namespace CraftJS

/-- A filesystem path as a list of name segments. -/
abbrev FsPath := List String

/-- Helper for `splitOnChar`: `acc` holds the (reversed) characters of the
current piece. -/
def splitOnCharGo (c : Char) : List Char → List Char → List String
  | [], acc => [String.mk acc.reverse]
  | x :: xs, acc =>
    if x = c then String.mk acc.reverse :: splitOnCharGo c xs []
    else splitOnCharGo c xs (x :: acc)

/-- Split a string at every occurrence of the separator character
(JS `s.split(c)`: the empty string yields `[""]`). -/
def splitOnChar (c : Char) (s : String) : List String :=
  splitOnCharGo c s.data []

/-- JS `s.startsWith(pre)`. -/
def strStartsWith (s pre : String) : Bool :=
  pre.data.isPrefixOf s.data

/-- JS `s[0] === '.'` (false on the empty string, whose `s[0]` is
`undefined`). -/
def firstCharIsDot (s : String) : Bool :=
  match s.data with
  | [] => false
  | c :: _ => c = '.'

/-- `Path.of s` / path-string parsing: split on `/`, dropping empty and `.`
components (denotational model, see module docstring). -/
def pathOfString (s : String) : FsPath :=
  (splitOnChar '/' s).filter (fun seg => ¬ (seg = "" ∨ seg = "."))

/-- `p.resolve s` for a path `p` and path string `s`. -/
def pathResolve (p : FsPath) (s : String) : FsPath :=
  p ++ pathOfString s

/-- `p.parent`: drop the last name segment. -/
def pathParent (p : FsPath) : FsPath :=
  p.dropLast

/-- A JS runtime value, as far as the loader distinguishes values:
a GraalJS package handle (identified by the package-name segments it was
reached through), an opaque script object with an identity tag, or a
module wrapper object `{ exports: ... }` holding its exports value. -/
inductive Value where
  | pkg (handle : List String)
  | obj (tag : Nat)
  | moduleRecord (exportsVal : Value)
  deriving DecidableEq, Repr

/-- Net outcome of `__craftjs.eval(closure)` followed by invoking the
wrapped module body: the body ran to completion leaving `module.exports`
at the given value, or a throw escaped the body (or `eval` itself threw),
leaving the given partial exports behind. -/
inductive ExecResult where
  | ok (exportsVal : Value)
  | threw (exportsSoFar : Value)
  deriving DecidableEq, Repr

/-- An error escaping `__require`: `ModuleNotFoundError(module, parent)`
thrown at the resolution step, or a host exception from
`Files.readString(entrypoint)` propagating uncaught. -/
inductive ReqError where
  | moduleNotFound (module : String) (parent : FsPath)
  | readFailure (path : FsPath)
  deriving DecidableEq, Repr

/-- Host environment of the loader. -/
structure Env where
  /-- `Files.exists(p)`. -/
  fileExists : FsPath → Bool
  /-- `Files.isDirectory(p)`. -/
  isDirectory : FsPath → Bool
  /-- `JSON.parse(Files.readString(p)).main` for a manifest file `p`
  (queried only when `p` exists; a parseable manifest is assumed). -/
  readJsonMain : FsPath → Option String
  /-- `Files.readString(p)`; `none` models the read throwing. -/
  readFile : FsPath → Option String
  /-- Outcome of evaluating and running the module body at a path. -/
  evalExec : FsPath → ExecResult
  /-- Whether the dotted-name prefix denotes a `java.lang.Package` in the
  GraalJS `Packages` graph (`pkg[part] instanceof Package`). -/
  isPkg : List String → Bool
  /-- `__craftjs.pluginRoot`. -/
  pluginRoot : FsPath
  /-- `__craftjscore`, the CraftJS core entrypoint. -/
  craftjsCore : FsPath

/-- Mutable loader state: the module cache and the require stack. -/
structure LoaderState where
  cache : List (String × Value)
  stack : List FsPath
  deriving DecidableEq, Repr

/-- `cache.has`/`cache.get`: first matching entry. -/
def cacheGet (c : List (String × Value)) (k : String) : Option Value :=
  (c.find? (fun e => e.1 == k)).map (fun e => e.2)

/-- `cache.set k v`: prepend; `cacheGet` sees the newest binding. -/
def cacheSet (c : List (String × Value)) (k : String) (v : Value) :
    List (String × Value) :=
  (k, v) :: c

/-- The static override table. -/
def overrides (id : String) : Option String :=
  if id = "path" then some "path-browserify"
  else if id = "tty" then some "tty-browserify"
  else none

/-- `resolvePackage`'s walk over the dotted segments: `acc` is the chain of
segments already confirmed to be packages, the list argument the remaining
segments. -/
def resolvePackageGo (isPkg : List String → Bool) (acc : List String) :
    List String → Option (List String)
  | [] => some acc
  | part :: rest =>
    if isPkg (acc ++ [part]) then resolvePackageGo isPkg (acc ++ [part]) rest
    else none

/-- `resolvePackage(name)`: walk the dotted name against the `Packages`
graph; every segment must be a `Package`, else the whole name fails. -/
def resolvePackage (isPkg : List String → Bool) (name : String) :
    Option (List String) :=
  resolvePackageGo isPkg [] (splitOnChar '.' name)

/-- `getEntrypoint`'s fall-back branch: the default `index.js` entry, only
if it exists. -/
def defaultEntrypoint (env : Env) (module : FsPath) : Option FsPath :=
  let entrypoint := pathResolve module "index.js"
  if env.fileExists entrypoint then some entrypoint else none

/-- `getEntrypoint(module)`: if a `package.json` exists and its `main`
field is truthy (present and nonempty), return `module.resolve(main)`
without checking that it exists; else fall back to `index.js` if that
exists; else `null`. -/
def getEntrypoint (env : Env) (module : FsPath) : Option FsPath :=
  let packageJson := pathResolve module "package.json"
  let mainField : Option String :=
    if env.fileExists packageJson then env.readJsonMain packageJson else none
  match mainField with
  | some m => if m = "" then defaultEntrypoint env module
              else some (pathResolve module m)
  | none => defaultEntrypoint env module

/-- `resolveNodeModule(name)`: look for `name` under the plugin root's
`node_modules` directory. -/
def resolveNodeModule (env : Env) (name : String) : Option FsPath :=
  let modules := pathResolve env.pluginRoot "node_modules"
  if !(env.isDirectory modules) then none
  else getEntrypoint env (pathResolve modules name)

/-- `resolveModule(parent, name)`: the special `craftjs` name, then node
modules for non-relative names, then `parent.resolve(name + ".js")` for
relative names, which must exist. -/
def resolveModule (env : Env) (parent : FsPath) (name : String) :
    Option FsPath :=
  if name = "craftjs" then some env.craftjsCore
  else if !(firstCharIsDot name) then resolveNodeModule env name
  else
    let module := pathResolve parent (name ++ ".js")
    if env.fileExists module then some module else none

/-- The parent directory used when no truthy `relative` argument is given:
`pluginRoot/dist` on an empty stack, else the parent of the stack's top
entry (`stack[stack.length - 1].parent`). -/
def stackParentDir (env : Env) (st : LoaderState) : FsPath :=
  match st.stack.getLast? with
  | none => pathResolve env.pluginRoot "dist"
  | some top => pathParent top

/-- The parent directory `__require` resolves against: `PathType.of(relative)`
when `relative` is truthy (JS truthiness: the empty string is falsy, like
`undefined`), else the stack-derived directory. -/
def requireParent (env : Env) (st : LoaderState) (relative : Option String) :
    FsPath :=
  match relative with
  | some r => if r = "" then stackParentDir env st else pathOfString r
  | none => stackParentDir env st

/-- `__require(id, relative?)`: the loader. Returns the value `require`
returns (or the error it throws) together with the updated state. -/
def __require (env : Env) (st : LoaderState) (idArg : String)
    (relative : Option String) : Except ReqError Value × LoaderState :=
  -- For ALL requires, check override table
  let id := (overrides idArg).getD idArg
  -- Check cache as early as possible: cacheId = (relative ?? '/') + id
  let cacheId := relative.getD "/" ++ id
  match cacheGet st.cache cacheId with
  | some v => (Except.ok v, st)
  | none =>
    -- Try to 'import' a Java package
    match resolvePackage env.isPkg id with
    | some handle =>
      (Except.ok (Value.pkg handle),
       { st with cache := cacheSet st.cache cacheId (Value.pkg handle) })
    | none =>
      -- Figure out parent directory for require
      let parent := requireParent env st relative
      -- Resolve module entrypoint and add it to require stack
      match resolveModule env parent id with
      | none => (Except.error (ReqError.moduleNotFound id parent), st)
      | some entrypoint =>
        let pushed : LoaderState :=
          { st with stack := st.stack ++ [entrypoint] }
        -- readString happens before (outside) the try/catch
        match env.readFile entrypoint with
        | none => (Except.error (ReqError.readFailure entrypoint), pushed)
        | some _contents =>
          -- Evaluate and execute; a throw is caught and only logged
          let exportsVal :=
            match env.evalExec entrypoint with
            | ExecResult.ok v => v
            | ExecResult.threw v => v
          let cachedSt : LoaderState :=
            { pushed with
              cache := cacheSet pushed.cache cacheId
                (Value.moduleRecord exportsVal) }
          (Except.ok exportsVal, { cachedSt with stack := cachedSt.stack.dropLast })

/-- One stack frame of the mixed-language trace (`FrameInfo`). -/
structure FrameInfo where
  javaFrame : Bool
  plugin : String
  source : String
  methodName : String
  fileName : String
  line : Int
  deriving DecidableEq, Repr

/-- JS sources that should be hidden from stack traces. -/
def hiddenScripts : List String :=
  ["entrypoint", "dist/boot/errors.js", "dist/boot/require.js",
   "dist/boot/sourcemap.js"]

/-- Java classes that should be hidden from stack traces. -/
def hiddenClasses : List String :=
  ["fi.valtakausi.craftjs.api.CraftJsContext",
   "fi.valtakausi.craftjs.api.JavaInterop",
   "org.graalvm.polyglot.Context",
   "com.oracle.truffle.polyglot.FunctionProxyHandler"]

/-- `shouldEmitFrame(frame)`; `showAllFrames` is the truthiness of the
`craftjs.trace.allFrames` system property read at boot. -/
def shouldEmitFrame (showAllFrames : Bool) (frame : FrameInfo) : Bool :=
  if showAllFrames then true
  else if frame.javaFrame then
    if hiddenClasses.contains frame.source then false
    else if strStartsWith frame.source "com.sun.proxy" then false
    else true
  else
    if hiddenScripts.contains frame.source then false
    else true

/-! ## Concrete host environments used by counterexamples and witnesses -/

/-- Two sibling directories `a` and `b` each holding a module file `m.js`;
the two module bodies produce distinguishable exports. -/
def envTwoDirs : Env where
  fileExists := fun p => p == ["a", "m.js"] || p == ["b", "m.js"]
  isDirectory := fun _ => false
  readJsonMain := fun _ => none
  readFile := fun p =>
    if p == ["a", "m.js"] || p == ["b", "m.js"] then some "module.exports" else none
  evalExec := fun p =>
    if p == ["a", "m.js"] then ExecResult.ok (Value.obj 1)
    else ExecResult.ok (Value.obj 2)
  isPkg := fun _ => false
  pluginRoot := []
  craftjsCore := ["craftjs-core"]

/-- A single module file `dist/m.js` whose body runs to completion and
leaves `module.exports` at `Value.obj 7`. -/
def envDistModule : Env where
  fileExists := fun p => p == ["dist", "m.js"]
  isDirectory := fun _ => false
  readJsonMain := fun _ => none
  readFile := fun p => if p == ["dist", "m.js"] then some "module.exports" else none
  evalExec := fun p =>
    if p == ["dist", "m.js"] then ExecResult.ok (Value.obj 7)
    else ExecResult.threw (Value.obj 0)
  isPkg := fun _ => false
  pluginRoot := []
  craftjsCore := ["craftjs-core"]

/-- A single module file `dist/bad.js` whose body throws, leaving partial
exports `Value.obj 3` behind. -/
def envThrowingModule : Env where
  fileExists := fun p => p == ["dist", "bad.js"]
  isDirectory := fun _ => false
  readJsonMain := fun _ => none
  readFile := fun p => if p == ["dist", "bad.js"] then some "throw x" else none
  evalExec := fun _ => ExecResult.threw (Value.obj 3)
  isPkg := fun _ => false
  pluginRoot := []
  craftjsCore := ["craftjs-core"]

/-- A node module `p` whose `package.json` declares `main: "nope.js"`, a
file that does not exist: reading it fails. -/
def envMissingMain : Env where
  fileExists := fun p => p == ["node_modules", "p", "package.json"]
  isDirectory := fun p => p == ["node_modules"]
  readJsonMain := fun p =>
    if p == ["node_modules", "p", "package.json"] then some "nope.js" else none
  readFile := fun _ => none
  evalExec := fun _ => ExecResult.threw (Value.obj 0)
  isPkg := fun _ => false
  pluginRoot := []
  craftjsCore := ["craftjs-core"]

/-- An empty filesystem: no files, no directories, no packages. -/
def envEmpty : Env where
  fileExists := fun _ => false
  isDirectory := fun _ => false
  readJsonMain := fun _ => none
  readFile := fun _ => none
  evalExec := fun _ => ExecResult.threw (Value.obj 0)
  isPkg := fun _ => false
  pluginRoot := []
  craftjsCore := ["craftjs-core"]

/-- A host namespace graph in which `a` and `a.b` are packages. -/
def envPkgGraph : Env where
  fileExists := fun _ => false
  isDirectory := fun _ => false
  readJsonMain := fun _ => none
  readFile := fun _ => none
  evalExec := fun _ => ExecResult.threw (Value.obj 0)
  isPkg := fun p => p == ["a"] || p == ["a", "b"]
  pluginRoot := []
  craftjsCore := ["craftjs-core"]

/-- A single file `d/x.js`. -/
def envSingleFile : Env where
  fileExists := fun p => p == ["d", "x.js"]
  isDirectory := fun _ => false
  readJsonMain := fun _ => none
  readFile := fun p => if p == ["d", "x.js"] then some "module.exports" else none
  evalExec := fun _ => ExecResult.ok (Value.obj 1)
  isPkg := fun _ => false
  pluginRoot := []
  craftjsCore := ["craftjs-core"]

/-! ## Lemmas and claim theorems -/

/-- Characterization of the dotted-name walk: starting from the already
confirmed chain `acc`, it succeeds with handle `acc ++ parts` exactly when
every nonempty prefix of the remaining segments extends `acc` to a
package. -/
lemma resolvePackageGo_eq_some_iff (isPkg : List String → Bool)
    (parts : List String) :
    ∀ acc h, resolvePackageGo isPkg acc parts = some h ↔
      (h = acc ++ parts ∧
        ∀ pre : List String, pre ≠ [] → pre <+: parts →
          isPkg (acc ++ pre) = true) := by
  induction parts with
  | nil =>
    intro acc h
    constructor
    · intro hgo
      refine ⟨?_, ?_⟩
      · simpa [resolvePackageGo] using hgo.symm
      · intro pre hne hpre
        exact absurd (List.prefix_nil.1 hpre) hne
    · rintro ⟨hh, -⟩
      simp [resolvePackageGo, hh]
  | cons p rest ih =>
    intro acc h
    unfold resolvePackageGo
    by_cases hp : isPkg (acc ++ [p]) = true
    · rw [if_pos hp, ih]
      constructor
      · rintro ⟨hh, hall⟩
        refine ⟨by simpa using hh, ?_⟩
        intro pre hne hpre
        match pre, hne, hpre with
        | q :: pre', _, hpre =>
          obtain ⟨hq, hpre'⟩ := List.cons_prefix_cons.1 hpre
          subst hq
          cases pre' with
          | nil => simpa using hp
          | cons q' pre'' =>
            have := hall (q' :: pre'') (by simp) hpre'
            simpa using this
      · rintro ⟨hh, hall⟩
        refine ⟨by simpa using hh, ?_⟩
        intro pre hne hpre
        have := hall (p :: pre) (by simp)
          (List.cons_prefix_cons.2 ⟨rfl, hpre⟩)
        simpa using this
    · rw [if_neg hp]
      constructor
      · intro hgo
        exact absurd hgo (by simp)
      · rintro ⟨-, hall⟩
        exact absurd (hall [p] (by simp) (by simp)) hp

/-- C1, counterexample: requiring `"./m"` (no explicit directory argument)
while the stack top is in directory `a` and then — with the resulting
cache — while the stack top is in directory `b` does NOT occupy two
distinct cache entries: the second call is answered from the entry the
first call created (directory `b`'s own `m.js` is never executed), and the
cache still holds a single entry. -/
theorem c1_shared_cache_entry_counterexample :
    (__require envTwoDirs ⟨[], [["a", "ep.js"]]⟩ "./m" none).1
        = Except.ok (Value.obj 1) ∧
    (__require envTwoDirs
        ⟨(__require envTwoDirs ⟨[], [["a", "ep.js"]]⟩ "./m" none).2.cache,
         [["b", "ep.js"]]⟩ "./m" none).1
        = Except.ok (Value.moduleRecord (Value.obj 1)) ∧
    (__require envTwoDirs
        ⟨(__require envTwoDirs ⟨[], [["a", "ep.js"]]⟩ "./m" none).2.cache,
         [["b", "ep.js"]]⟩ "./m" none).2.cache
        = [("/./m", Value.moduleRecord (Value.obj 1))] := by decide

/-- C1, amended: when no explicit directory argument is given, the cache
key is the constant `"/"` concatenated with the (override-substituted)
specifier — independent of the stack-derived current directory — so two
requires of the same specifier from states with the same cache but
different current directories consult the very same cache entry. -/
theorem c1_cache_key_ignores_stack_directory (env : Env)
    (st₁ st₂ : LoaderState) (idArg : String) (v : Value)
    (hcache : st₁.cache = st₂.cache)
    (hhit : cacheGet st₁.cache ("/" ++ (overrides idArg).getD idArg) = some v) :
    __require env st₁ idArg none = (Except.ok v, st₁) ∧
    __require env st₂ idArg none = (Except.ok v, st₂) := by
  have hhit₂ : cacheGet st₂.cache ("/" ++ (overrides idArg).getD idArg) = some v :=
    hcache ▸ hhit
  constructor <;> unfold __require <;>
    simp only [Option.getD_none, hhit, hhit₂]

/-- Witness for `c1_cache_key_ignores_stack_directory` at a concrete cache
and two stacks whose tops lie in different directories. -/
theorem c1_cache_key_ignores_stack_directory_witness :
    __require envTwoDirs ⟨[("/x", Value.obj 9)], [["a", "ep.js"]]⟩ "x" none
        = (Except.ok (Value.obj 9),
           ⟨[("/x", Value.obj 9)], [["a", "ep.js"]]⟩) ∧
    __require envTwoDirs ⟨[("/x", Value.obj 9)], [["b", "ep.js"]]⟩ "x" none
        = (Except.ok (Value.obj 9),
           ⟨[("/x", Value.obj 9)], [["b", "ep.js"]]⟩) :=
  c1_cache_key_ignores_stack_directory envTwoDirs
    ⟨[("/x", Value.obj 9)], [["a", "ep.js"]]⟩
    ⟨[("/x", Value.obj 9)], [["b", "ep.js"]]⟩
    "x" (Value.obj 9) (by decide) (by decide)

/-- C2: the code caches the module wrapper object but returns
`module.exports`, so on the second require of the same `(specifier,
directory)` pair the caller receives the wrapper `{ exports: ... }` — a
different reference from the exports object the first call returned. -/
theorem c2_cached_require_returns_module_record :
    (__require envDistModule ⟨[], []⟩ "./m" none).1 = Except.ok (Value.obj 7) ∧
    (__require envDistModule
        (__require envDistModule ⟨[], []⟩ "./m" none).2 "./m" none).1
      = Except.ok (Value.moduleRecord (Value.obj 7)) ∧
    (Except.ok (Value.obj 7) : Except ReqError Value)
      ≠ Except.ok (Value.moduleRecord (Value.obj 7)) := by decide

/-- C3: when the resolved module file is readable but its body throws
during execution, the error does not escape `__require` (the partial
exports are returned), a cache entry is still created under the computed
cache key, and the require stack is back at its prior depth. -/
theorem c3_throwing_body_isolated (env : Env) (st : LoaderState)
    (idArg : String) (relative : Option String) (ep : FsPath) (v : Value)
    (s : String)
    (hmiss : cacheGet st.cache
      (relative.getD "/" ++ (overrides idArg).getD idArg) = none)
    (hpkg : resolvePackage env.isPkg ((overrides idArg).getD idArg) = none)
    (hres : resolveModule env (requireParent env st relative)
      ((overrides idArg).getD idArg) = some ep)
    (hread : env.readFile ep = some s)
    (hexec : env.evalExec ep = ExecResult.threw v) :
    __require env st idArg relative =
      (Except.ok v,
       { cache := cacheSet st.cache
           (relative.getD "/" ++ (overrides idArg).getD idArg)
           (Value.moduleRecord v),
         stack := st.stack }) := by
  unfold __require
  simp only [hmiss, hpkg, hres, hread, hexec]
  simp [List.dropLast_concat]

/-- Witness for `c3_throwing_body_isolated`: `dist/bad.js` throws; the
require still returns its partial exports, caches the wrapper, and leaves
the stack empty. -/
theorem c3_throwing_body_isolated_witness :
    __require envThrowingModule ⟨[], []⟩ "./bad" none =
      (Except.ok (Value.obj 3),
       { cache := [("/./bad", Value.moduleRecord (Value.obj 3))],
         stack := [] }) :=
  c3_throwing_body_isolated envThrowingModule ⟨[], []⟩ "./bad" none
    ["dist", "bad.js"] (Value.obj 3) "throw x"
    (by decide) (by decide) (by decide) (by decide) (by decide)

/-- C4, counterexample: requiring package `p`, whose manifest declares a
`main` that does not exist, makes `Files.readString` throw after the
entrypoint was pushed: the error escapes `require` and the stack does not
return to its prior (empty) depth. -/
theorem c4_read_failure_escapes_counterexample :
    (__require envMissingMain ⟨[], []⟩ "p" none).1
        = Except.error (ReqError.readFailure ["node_modules", "p", "nope.js"]) ∧
    (__require envMissingMain ⟨[], []⟩ "p" none).2.stack
        = [["node_modules", "p", "nope.js"]] ∧
    ([["node_modules", "p", "nope.js"]] : List FsPath) ≠ [] := by decide

/-- C4, amended: the loader's catch covers only evaluation and invocation
of the module body; reading the file's text happens before it. If the
read throws, the error propagates across the loader boundary and the
pushed entry stays on the require stack; whenever the read succeeds, the
call returns normally and the stack returns to its prior depth. -/
theorem c4_loader_boundary_amended (env : Env) (st : LoaderState)
    (idArg : String) (relative : Option String) (ep : FsPath)
    (hmiss : cacheGet st.cache
      (relative.getD "/" ++ (overrides idArg).getD idArg) = none)
    (hpkg : resolvePackage env.isPkg ((overrides idArg).getD idArg) = none)
    (hres : resolveModule env (requireParent env st relative)
      ((overrides idArg).getD idArg) = some ep) :
    (env.readFile ep = none →
       __require env st idArg relative =
         (Except.error (ReqError.readFailure ep),
          { st with stack := st.stack ++ [ep] })) ∧
    (∀ s : String, env.readFile ep = some s →
       (__require env st idArg relative).2.stack = st.stack ∧
       ∃ v : Value, (__require env st idArg relative).1 = Except.ok v) := by
  constructor
  · intro hread
    unfold __require
    simp only [hmiss, hpkg, hres, hread]
  · intro s hread
    unfold __require
    simp only [hmiss, hpkg, hres, hread]
    constructor
    · simp
    · exact ⟨_, rfl⟩

/-- Witness for `c4_loader_boundary_amended`: the failing read of the
declared-but-missing `main` escapes with the entry still pushed. -/
theorem c4_loader_boundary_amended_witness :
    __require envMissingMain ⟨[], []⟩ "p" none =
      (Except.error (ReqError.readFailure ["node_modules", "p", "nope.js"]),
       { cache := [], stack := [["node_modules", "p", "nope.js"]] }) :=
  (c4_loader_boundary_amended envMissingMain ⟨[], []⟩ "p" none
    ["node_modules", "p", "nope.js"] (by decide) (by decide) (by decide)).1
    (by decide)

/-- C5: the override table is applied before the cache key is computed and
before any resolution step, so a require of `"path"` is indistinguishable
(result and state) from a require of the literal replacement name
`"path-browserify"` — in particular both hit and populate the same cache
entry. -/
theorem c5_override_before_cache_key (env : Env) (st : LoaderState)
    (relative : Option String) :
    __require env st "path" relative
      = __require env st "path-browserify" relative := by
  have h1 : (overrides "path").getD "path" = "path-browserify" := by decide
  have h2 : (overrides "path-browserify").getD "path-browserify"
      = "path-browserify" := by decide
  unfold __require
  rw [h1, h2]

/-- C6: a relative specifier `"./foo"` required with directory `D` given
resolves to `D/foo.js` exactly when that file exists; otherwise the call
fails with `ModuleNotFoundError` carrying `"./foo"` and `D`. -/
theorem c6_relative_resolution (env : Env) (st : LoaderState) (r : String)
    (hr : r ≠ "")
    (hmiss : cacheGet st.cache (r ++ "./foo") = none)
    (hpkg : resolvePackage env.isPkg "./foo" = none) :
    (resolveModule env (pathOfString r) "./foo" =
       (if env.fileExists (pathOfString r ++ ["foo.js"]) then
          some (pathOfString r ++ ["foo.js"])
        else none)) ∧
    (env.fileExists (pathOfString r ++ ["foo.js"]) = false →
       (__require env st "./foo" (some r)).1 =
         Except.error (ReqError.moduleNotFound "./foo" (pathOfString r))) := by
  have hres : resolveModule env (pathOfString r) "./foo" =
      (if env.fileExists (pathOfString r ++ ["foo.js"]) then
         some (pathOfString r ++ ["foo.js"])
       else none) := by
    unfold resolveModule
    rw [if_neg (by decide : ¬ ("./foo" : String) = "craftjs"),
      show firstCharIsDot "./foo" = true from by decide]
    rw [show pathResolve (pathOfString r) ("./foo" ++ ".js")
        = pathOfString r ++ ["foo.js"] from by
      unfold pathResolve
      rw [show pathOfString ("./foo" ++ ".js") = ["foo.js"] from by decide]]
    simp
  refine ⟨hres, ?_⟩
  intro hnotex
  have ho : (overrides "./foo").getD "./foo" = "./foo" := by decide
  have hparent : requireParent env st (some r) = pathOfString r := by
    unfold requireParent
    simp [hr]
  unfold __require
  simp only [ho, Option.getD_some]
  simp only [hmiss, hpkg, hparent, hres]
  rw [if_neg (by simp [hnotex])]

/-- Witness for `c6_relative_resolution`: on an empty filesystem,
`require("./foo", "q")` throws `ModuleNotFoundError("./foo", q)`. -/
theorem c6_relative_resolution_witness :
    (__require envEmpty ⟨[], []⟩ "./foo" (some "q")).1 =
      Except.error (ReqError.moduleNotFound "./foo" (pathOfString "q")) :=
  (c6_relative_resolution envEmpty ⟨[], []⟩ "q"
    (by decide) (by decide) (by decide)).2 (by decide)

/-- C7: the package entrypoint resolver returns `packageDir/main` whenever
a manifest exists and declares a (truthy) `main` field, for every
environment — in particular without checking that the declared file
exists; otherwise it returns the default `index.js` inside the package
directory when that exists, and `null` when it does not. -/
theorem c7_entrypoint_resolution (env : Env) (module : FsPath) :
    (∀ m : String, env.fileExists (pathResolve module "package.json") = true →
       env.readJsonMain (pathResolve module "package.json") = some m →
       m ≠ "" →
       getEntrypoint env module = some (pathResolve module m)) ∧
    ((env.fileExists (pathResolve module "package.json") = false ∨
      env.readJsonMain (pathResolve module "package.json") = none ∨
      env.readJsonMain (pathResolve module "package.json") = some "") →
       getEntrypoint env module =
         (if env.fileExists (pathResolve module "index.js") then
            some (pathResolve module "index.js")
          else none)) := by
  constructor
  · intro m hex hmain hne
    unfold getEntrypoint
    simp [hex, hmain, hne]
  · intro hcases
    unfold getEntrypoint defaultEntrypoint
    rcases hcases with hex | hnone | hempty
    · simp [hex]
    · by_cases hex : env.fileExists (pathResolve module "package.json") = true
      · simp [hex, hnone]
      · simp [hex]
    · by_cases hex : env.fileExists (pathResolve module "package.json") = true
      · simp [hex, hempty]
      · simp [hex]

/-- Witness for `c7_entrypoint_resolution`: the declared `main` is
returned even though the file it names does not exist. -/
theorem c7_entrypoint_resolution_witness :
    getEntrypoint envMissingMain ["node_modules", "p"] =
      some (pathResolve ["node_modules", "p"] "nope.js") :=
  (c7_entrypoint_resolution envMissingMain ["node_modules", "p"]).1
    "nope.js" (by decide) (by decide) (by decide)

/-- C8: namespace resolution of a dotted specifier succeeds (with the full
segment list as handle) exactly when every nonempty prefix of its dotted
segments is a package — one failing segment fails the whole name; and
when it succeeds, `__require` returns the namespace handle, caches it
under the cache key, and leaves the state otherwise untouched (no file
resolution, no execution). -/
theorem c8_namespace_resolution :
    (∀ (isPkg : List String → Bool) (name : String) (h : List String),
        resolvePackage isPkg name = some h ↔
          (h = splitOnChar '.' name ∧
            ∀ pre : List String, pre ≠ [] → pre <+: splitOnChar '.' name →
              isPkg pre = true)) ∧
    (∀ (env : Env) (st : LoaderState) (idArg : String)
        (relative : Option String) (handle : List String),
        cacheGet st.cache
          (relative.getD "/" ++ (overrides idArg).getD idArg) = none →
        resolvePackage env.isPkg ((overrides idArg).getD idArg) = some handle →
        __require env st idArg relative =
          (Except.ok (Value.pkg handle),
           { cache := cacheSet st.cache
               (relative.getD "/" ++ (overrides idArg).getD idArg)
               (Value.pkg handle),
             stack := st.stack })) := by
  constructor
  · intro isPkg name h
    rw [resolvePackage, resolvePackageGo_eq_some_iff]
    simp
  · intro env st idArg relative handle hmiss hpkg
    unfold __require
    simp only [hmiss, hpkg]

/-- Witness for `c8_namespace_resolution`: `require("a.b")` on a graph
where `a` and `a.b` are packages yields the namespace handle and caches
it. -/
theorem c8_namespace_resolution_witness :
    __require envPkgGraph ⟨[], []⟩ "a.b" none =
      (Except.ok (Value.pkg ["a", "b"]),
       { cache := [("/a.b", Value.pkg ["a", "b"])], stack := [] }) :=
  c8_namespace_resolution.2 envPkgGraph ⟨[], []⟩ "a.b" none ["a", "b"]
    (by decide) (by decide)

/-- C9: with the diagnostic override inactive, a frame is hidden exactly
when it is a host (java) frame whose source is in the hidden-class set or
starts with the internal-proxy prefix, or a script frame whose source is
in the hidden-script set; with the override active every frame is
emitted. -/
theorem c9_frame_filter (showAllFrames : Bool) (frame : FrameInfo) :
    shouldEmitFrame showAllFrames frame = false ↔
      (showAllFrames = false ∧
        ((frame.javaFrame = true ∧
           (hiddenClasses.contains frame.source = true ∨
            strStartsWith frame.source "com.sun.proxy" = true)) ∨
         (frame.javaFrame = false ∧
           hiddenScripts.contains frame.source = true))) := by
  unfold shouldEmitFrame
  cases showAllFrames with
  | true => simp
  | false =>
    cases hj : frame.javaFrame with
    | true =>
      by_cases hc : frame.source ∈ hiddenClasses
      · simp [hj, hc]
      · by_cases hs : strStartsWith frame.source "com.sun.proxy" = true
        · simp [hj, hc, hs]
        · simp [hj, hc, hs]
    | false =>
      by_cases hs : frame.source ∈ hiddenScripts
      · simp [hj, hs]
      · simp [hj, hs]

/-- C10: for every relative specifier the resolver appends `".js"` to the
specifier string unconditionally before resolving it against the
requesting directory; in particular `"./foo.js"` resolves exactly when a
file named `foo.js.js` exists there. -/
theorem c10_unconditional_js_extension :
    (∀ (env : Env) (parent : FsPath) (name : String),
        firstCharIsDot name = true →
        resolveModule env parent name =
          (if env.fileExists (pathResolve parent (name ++ ".js")) then
             some (pathResolve parent (name ++ ".js"))
           else none)) ∧
    (∀ (env : Env) (parent : FsPath),
        resolveModule env parent "./foo.js" =
          (if env.fileExists (parent ++ ["foo.js.js"]) then
             some (parent ++ ["foo.js.js"])
           else none)) := by
  have key : ∀ (env : Env) (parent : FsPath) (name : String),
      firstCharIsDot name = true →
      resolveModule env parent name =
        (if env.fileExists (pathResolve parent (name ++ ".js")) then
           some (pathResolve parent (name ++ ".js"))
         else none) := by
    intro env parent name hdot
    have hne : name ≠ "craftjs" := by
      intro hcon
      rw [hcon] at hdot
      exact absurd hdot (by decide)
    unfold resolveModule
    rw [if_neg hne, hdot]
    simp
  refine ⟨key, ?_⟩
  intro env parent
  have h := key env parent "./foo.js" (by decide)
  have hp : pathResolve parent ("./foo.js" ++ ".js")
      = parent ++ ["foo.js.js"] := by
    unfold pathResolve
    rw [show pathOfString ("./foo.js" ++ ".js") = ["foo.js.js"] from by decide]
  rw [h, hp]

/-- Witness for `c10_unconditional_js_extension`: `"./x"` resolves to the
file `x.js` in the requesting directory. -/
theorem c10_unconditional_js_extension_witness :
    resolveModule envSingleFile ["d"] "./x" = some ["d", "x.js"] := by
  have h := c10_unconditional_js_extension.1 envSingleFile ["d"] "./x"
    (by decide)
  rw [h]
  decide

end CraftJS
